import Mathlib

/-!
Verification of the compose-document codec of external-editor-revived.

The definitions below are a shallow embedding of the Rust sources:
* `src/model/messaging.rs` — `Compose::merge_from_eml`, `Compose::process_header`,
  `Compose::parse_optional_header`, `Compose::parse_custom_header`, plus the
  custom-header / attach-vCard emission fragments of `Compose::to_eml`;
* `src/model/thunderbird.rs` — the data model (`ComposeDetails`, recipients,
  `TrackedOptionBool`, `CustomHeader`) and `ComposeRecipient::from_header_value`;
* `src/util.rs` — `is_extension_compatible`.

Modelling conventions:
* Rust `String`/`&str` values are Lean `String`s; where a proof walks the
  characters we use `String.data : List Char`.  Byte lengths (Rust `String::len`)
  are computed with `Char.utf8Size`, matching Rust's UTF-8 byte counting.
* Rust's Unicode `str::trim` / ASCII `to_lowercase` are modelled by
  `trimList` / `Char.toLower` (the headers involved are ASCII).
* Fallible Rust code (`anyhow::Result`) becomes `Except String`.
* `serde_json` decoding of a structured recipient is an external collaborator:
  the embedding takes the decoder as an explicit parameter `nd`.
* The bounded recursion of `process_header` (the compact `X-ExtEditorR:` header
  expands into sub-headers which, carrying the `X-ExtEditorR-` prefix, can never
  be the compact header again) is modelled by queueing the expanded sub-headers,
  with a fuel parameter that is always given enough fuel by its caller.
-/

namespace EER

/-- Rust `bool` `Display`: "true" / "false". -/
def boolStr (b : Bool) : String := if b then "true" else "false"

/-- Rust `str::trim` on a character list: drop whitespace from both ends. -/
def trimList (l : List Char) : List Char :=
  ((l.dropWhile Char.isWhitespace).reverse.dropWhile Char.isWhitespace).reverse

/-- Rust `str::trim`. -/
def trimStr (s : String) : String := ⟨trimList s.data⟩

/-- Rust `str::to_lowercase` (ASCII range, as used by the header names). -/
def sToLower (s : String) : String := ⟨s.data.map Char.toLower⟩

/-- Rust `str::starts_with` on strings. -/
def sStartsWith (s p : String) : Bool := p.data.isPrefixOf s.data

/-- Rust `str::ends_with` on strings. -/
def sEndsWith (s p : String) : Bool := p.data.reverse.isPrefixOf s.data.reverse

/-- Drop the first `n` characters (ASCII prefix slicing `&s[n..]`). -/
def sDrop (s : String) (n : Nat) : String := ⟨s.data.drop n⟩

/-- Rust `str::split_once(sep)`: split at the first occurrence of `sep`. -/
def splitOnceAux (sep : Char) : List Char → Option (List Char × List Char)
  | [] => none
  | c :: cs =>
    if c = sep then some ([], cs)
    else (splitOnceAux sep cs).map (fun p => (c :: p.1, p.2))

/-- Rust `str::split_once(sep)` on strings. -/
def sSplitOnce (sep : Char) (s : String) : Option (String × String) :=
  (splitOnceAux sep s.data).map (fun p => (⟨p.1⟩, ⟨p.2⟩))

/-- Rust `str::split(sep)`: all separator-delimited segments (empty ones kept). -/
def splitSep (sep : Char) : List Char → List (List Char)
  | [] => [[]]
  | c :: cs =>
    if c = sep then [] :: splitSep sep cs
    else
      match splitSep sep cs with
      | [] => [[c]]
      | t :: ts => (c :: t) :: ts

/-- Rust `str::replace(pat, rep)`: replace every (leftmost, non-overlapping)
occurrence of `pat` by `rep`.  The fuel is the length of the scanned list;
each step consumes at least one character, so `l.length` fuel is enough. -/
def replaceAux (pat rep : List Char) : Nat → List Char → List Char
  | 0, l => l
  | _ + 1, [] => []
  | fuel + 1, c :: cs =>
    if pat.isPrefixOf (c :: cs) then
      rep ++ replaceAux pat rep fuel (cs.drop (pat.length - 1))
    else
      c :: replaceAux pat rep fuel cs

/-- Rust `str::replace(pat, rep)` on strings (for the non-empty patterns used here). -/
def sReplace (s pat rep : String) : String :=
  ⟨replaceAux pat.data rep.data s.data.length s.data⟩

/-- UTF-8 byte length of a character list (Rust `String::len`). -/
def utf8Len (l : List Char) : Nat := (l.map Char.utf8Size).sum

/-! ## The chunking loop of `Compose::merge_from_eml` (messaging.rs lines 284-296)

The Rust loop accumulates characters into `chunk`, and as soon as the running
byte length exceeds `max_body_length` it flushes the chunk.  `splitChunks`
returns the flushed chunks together with the residual accumulated chunk;
`splitBody` appends the residual exactly when the Rust code pushes it
(`if !chunk.is_empty() || compose_details_list.is_empty()`). -/

/-- The character loop of `merge_from_eml`: returns (flushed chunks, residual chunk). -/
def splitChunks (bound : Nat) (chunk : List Char) :
    List Char → (List (List Char) × List Char)
  | [] => ([], chunk)
  | c :: rest =>
    let chunk' := chunk ++ [c]
    if bound < utf8Len chunk' then
      let r := splitChunks bound [] rest
      (chunk' :: r.1, r.2)
    else
      splitChunks bound chunk' rest

/-- The complete body split of `merge_from_eml`: the residual chunk is pushed
iff it is non-empty or nothing was flushed. -/
def splitBody (bound : Nat) (body : List Char) : List (List Char) :=
  if (splitChunks bound [] body).2 ≠ [] ∨ (splitChunks bound [] body).1 = [] then
    (splitChunks bound [] body).1 ++ [(splitChunks bound [] body).2]
  else
    (splitChunks bound [] body).1

theorem utf8Len_append (a b : List Char) : utf8Len (a ++ b) = utf8Len a + utf8Len b := by
  simp [utf8Len]

/-- Concatenating flushed chunks and the residual restores the input. -/
theorem splitChunks_flatten (bound : Nat) :
    ∀ (body chunk : List Char),
      (splitChunks bound chunk body).1.flatten ++ (splitChunks bound chunk body).2
        = chunk ++ body := by
  intro body
  induction body with
  | nil => intro chunk; simp [splitChunks]
  | cons c rest ih =>
    intro chunk
    simp only [splitChunks]
    split
    · have h := ih []
      simp only [List.nil_append] at h
      simp only [List.flatten_cons, List.append_assoc, h]
      simp
    · have h := ih (chunk ++ [c])
      rw [h]
      simp

/-- Concatenating all chunks of `splitBody` restores the body. -/
theorem splitBody_flatten (bound : Nat) (body : List Char) :
    (splitBody bound body).flatten = body := by
  unfold splitBody
  have h := splitChunks_flatten bound body []
  split
  · simpa using h
  · next hcond =>
    push_neg at hcond
    rw [hcond.1] at h
    simpa using h

/-- Size bounds for the chunk loop: starting from an accumulated chunk of byte
length at most the bound, every flushed chunk has byte length strictly greater
than the bound and at most bound + 4, and the residual is at most the bound. -/
theorem splitChunks_bounds (bound : Nat) :
    ∀ (body chunk : List Char), utf8Len chunk ≤ bound →
      (∀ x ∈ (splitChunks bound chunk body).1,
          bound < utf8Len x ∧ utf8Len x ≤ bound + 4)
        ∧ utf8Len (splitChunks bound chunk body).2 ≤ bound := by
  intro body
  induction body with
  | nil => intro chunk h; simpa [splitChunks] using h
  | cons c rest ih =>
    intro chunk h
    simp only [splitChunks]
    split
    · next hgt =>
      have hle : utf8Len (chunk ++ [c]) ≤ bound + 4 := by
        rw [utf8Len_append]
        have h4 := Char.utf8Size_le_four c
        have : utf8Len [c] ≤ 4 := by simpa [utf8Len] using h4
        omega
      have hrest := ih [] (by simp [utf8Len])
      refine ⟨?_, hrest.2⟩
      intro x hx
      rcases List.mem_cons.1 hx with hx | hx
      · subst hx; exact ⟨hgt, hle⟩
      · exact hrest.1 x hx
    · next hng =>
      push_neg at hng
      exact ih (chunk ++ [c]) hng

/-- A body that fits within the bound is never flushed. -/
theorem splitChunks_small (bound : Nat) :
    ∀ (body chunk : List Char), utf8Len (chunk ++ body) ≤ bound →
      splitChunks bound chunk body = ([], chunk ++ body) := by
  intro body
  induction body with
  | nil => intro chunk h; simp [splitChunks]
  | cons c rest ih =>
    intro chunk h
    simp only [splitChunks]
    have hc : utf8Len ((chunk ++ [c]) ++ rest) ≤ bound := by
      simpa using h
    have hle : ¬ bound < utf8Len (chunk ++ [c]) := by
      rw [utf8Len_append] at hc
      omega
    rw [if_neg hle]
    rw [ih (chunk ++ [c]) hc]
    simp

/-- A body of byte length at most the bound yields exactly one chunk: the body. -/
theorem splitBody_small (bound : Nat) (body : List Char)
    (h : utf8Len body ≤ bound) : splitBody bound body = [body] := by
  unfold splitBody
  rw [splitChunks_small bound body [] (by simpa using h)]
  simp

/-- `splitBody` always produces at least one chunk. -/
theorem splitBody_ne_nil (bound : Nat) (body : List Char) :
    splitBody bound body ≠ [] := by
  unfold splitBody
  split
  · simp
  · next h =>
    push_neg at h
    exact h.2

/-! ## Data model (`src/model/thunderbird.rs`) -/

inductive TabStatus where
  | loading
  | complete
deriving DecidableEq

inductive TabType where
  | addressBook
  | calendar
  | calendarEvent
  | calendarTask
  | chat
  | content
  | mail
  | messageCompose
  | messageDisplay
  | special
  | tasks
deriving DecidableEq

structure Tab where
  id : Int
  index : Int
  window_id : Int
  highlighted : Bool
  active : Bool
  status : TabStatus
  width : Int
  height : Int
  tab_type : TabType
  mail_tab : Bool
deriving DecidableEq

inductive DeliveryFormat where
  | auto
  | plainText
  | html
  | both
deriving DecidableEq

inductive Priority where
  | lowest
  | low
  | normal
  | high
  | highest
deriving DecidableEq

inductive ComposeType where
  | draft
  | new
  | redirect
  | reply
  | forward
deriving DecidableEq

structure ComposeAttachment where
  id : Int
  name : String
  size : Int
deriving DecidableEq

inductive ComposeRecipientNodeType where
  | contact
  | mailingList
deriving DecidableEq

structure ComposeRecipientNode where
  id : String
  node_type : ComposeRecipientNodeType
deriving DecidableEq

inductive ComposeRecipient where
  | email : String → ComposeRecipient
  | node : ComposeRecipientNode → ComposeRecipient
deriving DecidableEq

inductive ComposeRecipientList where
  | single : ComposeRecipient → ComposeRecipientList
  | multiple : List ComposeRecipient → ComposeRecipientList
deriving DecidableEq

inductive Newsgroups where
  | single : String → Newsgroups
  | multiple : List String → Newsgroups
deriving DecidableEq

/-- `TrackedOptionBool` (thunderbird.rs lines 167-189): an optional boolean with
a "touched" flag that records whether `set` was called since deserialization. -/
structure TrackedOptionBool where
  inner : Option Bool
  changed : Bool
deriving DecidableEq

/-- `TrackedOptionBool::new`. -/
def TrackedOptionBool.new (value : Bool) : TrackedOptionBool :=
  { inner := some value, changed := false }

/-- `TrackedOptionBool::set`. -/
def TrackedOptionBool.set (_t : TrackedOptionBool) (value : Bool) : TrackedOptionBool :=
  { inner := some value, changed := true }

/-- `TrackedOptionBool::is_unchanged`. -/
def TrackedOptionBool.is_unchanged (t : TrackedOptionBool) : Bool := !t.changed

/-- `CustomHeader` with the canonicalizing constructor `CustomHeader::new`:
both name and value are trimmed, and a (lowercase) `x-` name prefix is
rewritten to `X-` because Thunderbird is case-sensitive on emission. -/
structure CustomHeader where
  name : String
  value : String
deriving DecidableEq

/-- `CustomHeader::new` (thunderbird.rs lines 350-361). -/
def CustomHeader.new (name value : String) : CustomHeader :=
  { name :=
      if sStartsWith (trimStr name) "x-" then "X-" ++ sDrop (trimStr name) 2
      else trimStr name,
    value := trimStr value }

/-- `ComposeRecipient::from_header_value` (thunderbird.rs lines 312-327).
`nd` is the external `serde_json` decoder for the structured
`ComposeRecipientNode` form. -/
def ComposeRecipient.fromHeaderValue
    (nd : String → Except String ComposeRecipientNode) (value : String) :
    Except String ComposeRecipient :=
  match value.data with
  | [] => .error "Failed to convert empty string to ComposeRecipient"
  | c :: _ =>
    if c = '{' then (nd value).map ComposeRecipient.node
    else .ok (ComposeRecipient.email value)

structure ComposeDetails where
  from_ : ComposeRecipient
  to_ : ComposeRecipientList
  cc : ComposeRecipientList
  bcc : ComposeRecipientList
  compose_type : ComposeType
  related_message_id : Option Int
  reply_to : ComposeRecipientList
  follow_up_to : ComposeRecipientList
  newsgroups : Newsgroups
  subject : String
  delivery_format : Option (Option DeliveryFormat)
  is_plain_text : Bool
  body : String
  plain_text_body : String
  priority : Option Priority
  attachments : List ComposeAttachment
  attach_vcard : TrackedOptionBool
  delivery_status_notification : Option Bool
  return_receipt : Option Bool
  custom_headers : List CustomHeader
deriving DecidableEq

/-- `ComposeDetails::set_body`: writes whichever body field `is_plain_text`
selects (thunderbird.rs lines 114-120). -/
def ComposeDetails.set_body (cd : ComposeDetails) (b : String) : ComposeDetails :=
  if cd.is_plain_text then { cd with plain_text_body := b } else { cd with body := b }

/-- `ComposeDetails::clear_recipients` (thunderbird.rs lines 123-128). -/
def ComposeDetails.clear_recipients (cd : ComposeDetails) : ComposeDetails :=
  { cd with
    to_ := ComposeRecipientList.multiple []
    cc := ComposeRecipientList.multiple []
    bcc := ComposeRecipientList.multiple []
    reply_to := ComposeRecipientList.multiple [] }

/-- Shared add-semantics of `add_to`/`add_cc`/`add_bcc`/`add_reply_to`:
a single-recipient list is promoted to a two-element multiple list. -/
def addRecipient (l : ComposeRecipientList) (r : ComposeRecipient) :
    ComposeRecipientList :=
  match l with
  | ComposeRecipientList.single r0 => ComposeRecipientList.multiple [r0, r]
  | ComposeRecipientList.multiple rs => ComposeRecipientList.multiple (rs ++ [r])

/-- `ComposeDetails::add_to`. -/
def ComposeDetails.add_to (cd : ComposeDetails) (r : ComposeRecipient) : ComposeDetails :=
  { cd with to_ := addRecipient cd.to_ r }

/-- `ComposeDetails::add_cc`. -/
def ComposeDetails.add_cc (cd : ComposeDetails) (r : ComposeRecipient) : ComposeDetails :=
  { cd with cc := addRecipient cd.cc r }

/-- `ComposeDetails::add_bcc`. -/
def ComposeDetails.add_bcc (cd : ComposeDetails) (r : ComposeRecipient) : ComposeDetails :=
  { cd with bcc := addRecipient cd.bcc r }

/-- `ComposeDetails::add_reply_to`. -/
def ComposeDetails.add_reply_to (cd : ComposeDetails) (r : ComposeRecipient) :
    ComposeDetails :=
  { cd with reply_to := addRecipient cd.reply_to r }

structure Warning where
  title : String
  message : String
deriving DecidableEq

structure Configuration where
  version : String
  sequence : Nat
  total : Nat
  shell : String
  template : String
  temporary_directory : String
  send_on_exit : Bool
  suppress_help_headers : Bool
  meta_headers : Bool
  allow_custom_headers : Bool
  bypass_version_check : Bool
deriving DecidableEq

structure Compose where
  configuration : Configuration
  warnings : List Warning
  tab : Tab
  compose_details : ComposeDetails
deriving DecidableEq

/-! ## Header codec (`src/model/messaging.rs`) -/

def HEADER_META : String := "X-ExtEditorR"
def HEADER_LOWER_META : String := "x-exteditorr"
def HEADER_NORMALISED_META : String := "X-Exteditorr"
def HEADER_LOWER_ESCAPED_META : String := "x-exteditorr-x-exteditorr"
def HEADER_ATTACH_VCARD : String := "X-ExtEditorR-Attach-vCard"
def HEADER_DELIVERY_FORMAT : String := "X-ExtEditorR-Delivery-Format"

/-- Rust `bool::from_str`: exactly "true" or "false". -/
def boolFromStr (s : String) : Option Bool :=
  if s = "true" then some true
  else if s = "false" then some false
  else none

/-- strum-derived `Priority::from_str` (`ascii_case_insensitive`, lowercase
serializations). -/
def priorityFromStr (s : String) : Option Priority :=
  if sToLower s = "lowest" then some Priority.lowest
  else if sToLower s = "low" then some Priority.low
  else if sToLower s = "normal" then some Priority.normal
  else if sToLower s = "high" then some Priority.high
  else if sToLower s = "highest" then some Priority.highest
  else none

/-- strum-derived `DeliveryFormat::from_str`. -/
def deliveryFormatFromStr (s : String) : Option DeliveryFormat :=
  if sToLower s = "auto" then some DeliveryFormat.auto
  else if sToLower s = "plaintext" then some DeliveryFormat.plainText
  else if sToLower s = "html" then some DeliveryFormat.html
  else if sToLower s = "both" then some DeliveryFormat.both
  else none

/-- `Compose::parse_optional_header` (messaging.rs lines 449-462): a value
wrapped in brackets is a placeholder (`Ok(None)`, no override); otherwise the
value must parse, and a parse failure aborts with a descriptive error. -/
def parseOptionalHeader {α : Type} (fromStr : String → Option α)
    (headerName headerValue : String) : Except String (Option α) :=
  if sStartsWith headerValue "[" && sEndsWith headerValue "]" then
    .ok none
  else
    match fromStr headerValue with
    | some v => .ok (some v)
    | none =>
      .error ("ExtEditorR failed to parse " ++ headerName ++ " value: " ++ headerValue)

/-- The attach-vCard branch of `process_header` (messaging.rs lines 353-359),
acting on the `TrackedOptionBool`: a placeholder leaves the state untouched,
an explicit value goes through `TrackedOptionBool::set`. -/
def attachVCardStep (t : TrackedOptionBool) (headerValue : String) :
    Except String TrackedOptionBool :=
  match parseOptionalHeader boolFromStr HEADER_ATTACH_VCARD headerValue with
  | .error e => .error e
  | .ok none => .ok t
  | .ok (some v) => .ok (t.set v)

/-- `Compose::parse_custom_header` (messaging.rs lines 464-473). -/
def parseCustomHeader (headerValue : String) : Except String CustomHeader :=
  match sSplitOnce ':' headerValue with
  | some p => .ok (CustomHeader.new p.1 p.2)
  | none => .error ("ExtEditorR failed to parse custom header: " ++ headerValue)

/-- One step of `Compose::process_header` (messaging.rs lines 314-413).
Returns the updated compose, the updated unknown-header list, and — for the
compact `X-ExtEditorR:` meta header — the expanded sub-headers still to be
processed (the Rust code processes them by direct recursion; the expansion
queue below replays them in the same order with the same results, since an
expanded name always carries the `X-ExtEditorR-` prefix and so can never be
the compact header again). -/
def headerStep (nd : String → Except String ComposeRecipientNode)
    (c : Compose) (unknown : List String) (headerName headerValue : String) :
    Except String (Compose × List String × List (String × String)) :=
  let lower := sToLower (trimStr headerName)
  let value := trimStr headerValue
  if value = "" then .ok (c, unknown, [])
  else if lower = "from" then
    match ComposeRecipient.fromHeaderValue nd value with
    | .error e => .error e
    | .ok r =>
      .ok ({ c with compose_details := { c.compose_details with from_ := r } }, unknown, [])
  else if lower = "to" then
    match ComposeRecipient.fromHeaderValue nd value with
    | .error e => .error e
    | .ok r => .ok ({ c with compose_details := c.compose_details.add_to r }, unknown, [])
  else if lower = "cc" then
    match ComposeRecipient.fromHeaderValue nd value with
    | .error e => .error e
    | .ok r => .ok ({ c with compose_details := c.compose_details.add_cc r }, unknown, [])
  else if lower = "bcc" then
    match ComposeRecipient.fromHeaderValue nd value with
    | .error e => .error e
    | .ok r => .ok ({ c with compose_details := c.compose_details.add_bcc r }, unknown, [])
  else if lower = "reply-to" then
    match ComposeRecipient.fromHeaderValue nd value with
    | .error e => .error e
    | .ok r =>
      .ok ({ c with compose_details := c.compose_details.add_reply_to r }, unknown, [])
  else if lower = "subject" then
    .ok ({ c with compose_details := { c.compose_details with subject := value } },
      unknown, [])
  else if lower = "x-exteditorr-priority" then
    match priorityFromStr value with
    | none => .error ("Matching variant not found: " ++ value)
    | some p =>
      .ok ({ c with compose_details := { c.compose_details with priority := some p } },
        unknown, [])
  else if lower = "x-exteditorr-delivery-format" then
    match parseOptionalHeader deliveryFormatFromStr HEADER_DELIVERY_FORMAT value with
    | .error e => .error e
    | .ok none => .ok (c, unknown, [])
    | .ok (some df) =>
      .ok ({ c with compose_details :=
        { c.compose_details with delivery_format := some (some df) } }, unknown, [])
  else if lower = "x-exteditorr-attach-vcard" then
    match attachVCardStep c.compose_details.attach_vcard value with
    | .error e => .error e
    | .ok t =>
      .ok ({ c with compose_details := { c.compose_details with attach_vcard := t } },
        unknown, [])
  else if lower = "x-exteditorr-delivery-status-notification" ∨ lower = "x-exteditorr-dsn" then
    match boolFromStr value with
    | none => .error ("provided string was not `true` or `false`: " ++ value)
    | some b =>
      .ok ({ c with compose_details :=
        { c.compose_details with delivery_status_notification := some b } }, unknown, [])
  else if lower = "x-exteditorr-return-receipt" then
    match boolFromStr value with
    | none => .error ("provided string was not `true` or `false`: " ++ value)
    | some b =>
      .ok ({ c with compose_details :=
        { c.compose_details with return_receipt := some b } }, unknown, [])
  else if lower = "x-exteditorr-allow-x-headers" ∨ lower = "x-exteditorr-allow-custom-headers" then
    match boolFromStr value with
    | none => .error ("provided string was not `true` or `false`: " ++ value)
    | some b =>
      .ok ({ c with configuration := { c.configuration with allow_custom_headers := b } },
        unknown, [])
  else if lower = "x-exteditorr-x-header" ∨ lower = "x-exteditorr-custom-header" then
    match parseCustomHeader value with
    | .error e => .error e
    | .ok ch =>
      .ok ({ c with compose_details := { c.compose_details with
        custom_headers := c.compose_details.custom_headers ++ [ch] } }, unknown, [])
  else if lower = "x-exteditorr-send-on-exit" then
    .ok ({ c with configuration :=
      { c.configuration with send_on_exit := value = "true" } }, unknown, [])
  else if lower = "x-exteditorr-help" then
    .ok (c, unknown, [])
  else if lower = "x-exteditorr" then
    .ok (c, unknown,
      ((splitSep ',' value.data).map (fun seg => trimStr ⟨seg⟩)).filterMap
        (fun seg =>
          (sSplitOnce ':' seg).map (fun p => (HEADER_META ++ "-" ++ p.1, p.2))))
  else if sStartsWith lower HEADER_LOWER_ESCAPED_META then
    .ok ({ c with compose_details := { c.compose_details with
      custom_headers := c.compose_details.custom_headers
        ++ [CustomHeader.new (sDrop headerName 13) value] } }, unknown, [])
  else if sStartsWith lower "x-" && !sStartsWith lower HEADER_LOWER_META then
    .ok ({ c with compose_details := { c.compose_details with
      custom_headers := c.compose_details.custom_headers
        ++ [CustomHeader.new headerName value] } }, unknown, [])
  else
    .ok (c, unknown ++ [headerName], [])

/-- `Compose::process_header` on a queue of header name/value pairs; the fuel
bounds the number of processed pairs (see `headerStep` for why the meta-header
expansion terminates; callers pass enough fuel for it never to run out). -/
def processHeaders (nd : String → Except String ComposeRecipientNode) :
    Nat → Compose → List String → List (String × String) →
    Except String (Compose × List String)
  | _, c, unknown, [] => .ok (c, unknown)
  | 0, c, unknown, _ => .ok (c, unknown)
  | fuel + 1, c, unknown, (hn, hv) :: rest =>
    match headerStep nd c unknown hn hv with
    | .error e => .error e
    | .ok (c', unknown', pairs) => processHeaders nd fuel c' unknown' (pairs ++ rest)

/-- One `read_until(b'\n')` call: the line including its terminating newline,
plus the rest of the stream. -/
def readLine : List Char → (List Char × List Char)
  | [] => ([], [])
  | c :: cs =>
    if c = '\n' then ([c], cs)
    else
      let r := readLine cs
      (c :: r.1, r.2)

/-- The header-reading loop of `merge_from_eml` (messaging.rs lines 235-249):
read lines until end of stream or a blank (after trimming) line; split each
line at the first `:` and process it (a line without `:` is only logged).
The fuel is an upper bound on the number of lines; each line consumes at least
one character, so `input.length + 1` is always enough. -/
def headerLoop (nd : String → Except String ComposeRecipientNode) :
    Nat → Compose → List String → List Char →
    Except String (Compose × List String × List Char)
  | 0, c, unknown, input => .ok (c, unknown, input)
  | fuel + 1, c, unknown, input =>
    match input with
    | [] => .ok (c, unknown, [])
    | _ :: _ =>
      let r := readLine input
      let line := trimStr ⟨r.1⟩
      if line = "" then .ok (c, unknown, r.2)
      else
        match sSplitOnce ':' line with
        | some (hn, hv) =>
          match processHeaders nd (hv.length + 2) c unknown [(hn, hv)] with
          | .error e => .error e
          | .ok (c', unknown') => headerLoop nd fuel c' unknown' r.2
        | none => headerLoop nd fuel c unknown r.2

/-- The warning appended for unknown headers (messaging.rs lines 261-273). -/
def unknownWarning (unknown : List String) : Warning :=
  { title := "Unknown header(s) found"
    message := "ExtEditorR did not recognise the following headers:\n"
      ++ String.intercalate "\n" (unknown.map (fun h => "- " ++ h)) }

/-- The final safety step of the header phase (messaging.rs lines 274-277):
any warnings force `send_on_exit` off. -/
def forceNoSend (c : Compose) : Compose :=
  if c.warnings = [] then c
  else { c with configuration := { c.configuration with send_on_exit := false } }

/-- The post-loop processing of `merge_from_eml` (messaging.rs lines 250-277):
demote collected custom headers to unknown when custom headers are disallowed,
append the unknown-header warning, and force `send_on_exit` off when any
warnings are present. -/
def headerPost (c1 : Compose) (unknown : List String) : Compose :=
  forceNoSend
    (if (if c1.configuration.allow_custom_headers then unknown
          else unknown ++ c1.compose_details.custom_headers.map CustomHeader.name) = [] then
      (if c1.configuration.allow_custom_headers then c1
        else { c1 with compose_details := { c1.compose_details with custom_headers := [] } })
    else
      { (if c1.configuration.allow_custom_headers then c1
          else { c1 with compose_details := { c1.compose_details with custom_headers := [] } })
        with warnings :=
          (if c1.configuration.allow_custom_headers then c1
            else { c1 with compose_details :=
              { c1.compose_details with custom_headers := [] } }).warnings
          ++ [unknownWarning
              (if c1.configuration.allow_custom_headers then unknown
                else unknown
                  ++ c1.compose_details.custom_headers.map CustomHeader.name)] })

/-- The header phase of `merge_from_eml` (messaging.rs lines 226-277): reset
the recipient lists, `send_on_exit` and the custom headers, run the header
loop, then apply the post-loop processing.  Returns the updated compose and
the remaining stream (the body bytes). -/
def headerPhase (nd : String → Except String ComposeRecipientNode)
    (c : Compose) (input : List Char) :
    Except String (Compose × List Char) :=
  match headerLoop nd (input.length + 1)
      { c with
        configuration := { c.configuration with send_on_exit := false }
        compose_details :=
          { c.compose_details.clear_recipients with custom_headers := [] } }
      [] input with
  | .error e => .error e
  | .ok (c1, unknown, rest) => .ok (headerPost c1 unknown, rest)

/-- The index/total stamping loop of `merge_from_eml` (messaging.rs lines
306-310). -/
def stamp (total : Nat) : Nat → List Compose → List Compose
  | _, [] => []
  | i, r :: rs =>
    { r with configuration := { r.configuration with sequence := i, total := total } }
      :: stamp total (i + 1) rs

/-- The body phase of `merge_from_eml` (messaging.rs lines 278-311): clear both
body fields, split the body, clone the compose once per chunk with the chunk
written through `set_body`, and stamp `sequence`/`total`. -/
def buildResponses (c : Compose) (body : List Char) (maxBodyLength : Nat) :
    List Compose :=
  let cd0 := { c.compose_details with body := "", plain_text_body := "" }
  let rs := (splitBody maxBodyLength body).map
    (fun ch => { c with compose_details := cd0.set_body ⟨ch⟩ })
  stamp rs.length 0 rs

/-- `Compose::merge_from_eml` (messaging.rs lines 222-312): the header phase
followed by the body/chunking phase.  The input stream is modelled as the
character list of the edited document (`String::from_utf8_lossy` of the raw
bytes). -/
def mergeFromEml (nd : String → Except String ComposeRecipientNode)
    (c : Compose) (input : List Char) (maxBodyLength : Nat) :
    Except String (List Compose) :=
  match headerPhase nd c input with
  | .error e => .error e
  | .ok (c', rest) => .ok (buildResponses c' rest maxBodyLength)

/-- The body field of a response selected by `is_plain_text` — the field
`set_body` wrote the chunk into. -/
def respBody (c : Compose) : String :=
  if c.compose_details.is_plain_text then c.compose_details.plain_text_body
  else c.compose_details.body

/-! ## Emission fragments of `Compose::to_eml` -/

/-- The attach-vCard emission of `to_eml` (messaging.rs lines 132-134): when
the tri-state flag holds a value, it is emitted wrapped in brackets (a
placeholder, regardless of the touched flag); when it holds none, no line is
emitted. -/
def renderAttachVCard (t : TrackedOptionBool) : Option String :=
  t.inner.map (fun v => HEADER_ATTACH_VCARD ++ ": [" ++ boolStr v ++ "]")

/-- The capitalisation rewrite `name.replace(HEADER_NORMALISED_META,
HEADER_META)` applied by `to_eml` to a colliding custom header name before
doubling the prefix (messaging.rs lines 173-175 and 200-202). -/
def normaliseMetaName (name : String) : String :=
  sReplace name HEADER_NORMALISED_META HEADER_META

/-- The custom-header emission of `to_eml` with `meta_headers` disabled
(messaging.rs lines 157-213): a custom header whose name starts
(case-insensitively) with the reserved meta prefix is emitted with the prefix
doubled, after rewriting the Thunderbird-normalised capitalisation
`X-Exteditorr` back to `X-ExtEditorR`; both the compact-eligible partition and
the remaining colliding headers produce this same line shape.  Any other
custom header is emitted verbatim. -/
def renderCustomHeader (ch : CustomHeader) : String :=
  if sStartsWith (sToLower ch.name) HEADER_LOWER_META then
    HEADER_META ++ "-" ++ normaliseMetaName ch.name ++ ": " ++ ch.value
  else
    ch.name ++ ": " ++ ch.value

/-! ## `src/util.rs` -/

/-- `is_extension_compatible` (util.rs lines 42-50): both versions must split
on `.` into exactly three segments, and the first two segments must agree. -/
def is_extension_compatible (host_version extension_version : String) : Bool :=
  let hs := splitSep '.' host_version.data
  let es := splitSep '.' extension_version.data
  hs.length = 3 && es.length = 3
    && hs.getD 0 [] = es.getD 0 [] && hs.getD 1 [] = es.getD 1 []

/-! ## Test fixture -/

/-- The blank compose request of the repository's test suite
(`get_blank_compose` / `get_blank_compose_details`). -/
def blankCompose : Compose :=
  { configuration :=
      { version := "0.0.0", sequence := 0, total := 0, shell := "", template := ""
        temporary_directory := "", send_on_exit := false
        suppress_help_headers := false, meta_headers := false
        allow_custom_headers := false, bypass_version_check := false }
    warnings := []
    tab :=
      { id := 0, index := 0, window_id := 0, highlighted := false, active := false
        status := TabStatus.complete, width := 0, height := 0
        tab_type := TabType.messageCompose, mail_tab := false }
    compose_details :=
      { from_ := ComposeRecipient.email "someone@example.com"
        to_ := ComposeRecipientList.single (ComposeRecipient.email "someone@example.com")
        cc := ComposeRecipientList.multiple []
        bcc := ComposeRecipientList.multiple []
        compose_type := ComposeType.new
        related_message_id := none
        reply_to := ComposeRecipientList.multiple []
        follow_up_to := ComposeRecipientList.multiple []
        newsgroups := Newsgroups.multiple []
        subject := ""
        delivery_format := none
        is_plain_text := true
        body := ""
        plain_text_body := ""
        priority := none
        attachments := []
        attach_vcard := { inner := none, changed := false }
        delivery_status_notification := none
        return_receipt := none
        custom_headers := [] } }

/-- A stand-in for the external `serde_json` recipient decoder used by the
concrete witnesses (none of the witness documents contains a structured
recipient, so it is never consulted). -/
def stubDecode : String → Except String ComposeRecipientNode :=
  fun _ => .error "serde_json decode error"

/-! ## Claim C1 -/

/-- C1 counterexample: with bound 1, the body "ab" (whose byte length 2 is not
below the bound) is split into the single chunk "ab" of byte length 2 > 1, so
not every chunk's byte length is at most the bound: the loop flushes a chunk
only after its running byte length already exceeds the bound. -/
theorem claim1_counterexample :
    ¬ (utf8Len "ab".data < 1)
    ∧ splitBody 1 "ab".data = ["ab".data]
    ∧ ¬ (∀ ch ∈ splitBody 1 "ab".data, utf8Len ch ≤ 1) := by
  decide

/-- C1 (amended): every chunk produced by the body split of `merge_from_eml`
has byte length at most the bound plus 4 (the bound plus at most one UTF-8
character); every chunk flushed inside the scan has byte length strictly
greater than the bound, the residual chunk stays within the bound, and a body
whose byte length is at most the bound yields exactly one chunk equal to the
whole body. -/
theorem claim1_theorem (b : Nat) (body : List Char) :
    (∀ ch ∈ splitBody b body, utf8Len ch ≤ b + 4)
    ∧ (∀ ch ∈ (splitChunks b [] body).1, b < utf8Len ch)
    ∧ utf8Len (splitChunks b [] body).2 ≤ b
    ∧ (utf8Len body ≤ b → splitBody b body = [body]) := by
  have hb := splitChunks_bounds b body [] (by simp [utf8Len])
  refine ⟨?_, fun ch h => (hb.1 ch h).1, hb.2, splitBody_small b body⟩
  intro ch hch
  unfold splitBody at hch
  split at hch
  · rcases List.mem_append.1 hch with h | h
    · exact (hb.1 ch h).2
    · simp only [List.mem_singleton] at h
      subst h
      omega
  · exact (hb.1 ch hch).2

/-- C1 witness: the repository's own chunking example, bound 13 with body
"Hello, world! Hello, world! Hello!\r\n" (flushed chunks of byte length 14),
and a small body passed through unsplit. -/
theorem claim1_witness :
    utf8Len "Hello, world! ".data ≤ 13 + 4
    ∧ 13 < utf8Len "Hello, world! ".data
    ∧ utf8Len (splitChunks 13 [] "Hello, world! Hello, world! Hello!\r\n".data).2 ≤ 13
    ∧ splitBody 13 "Hello!".data = ["Hello!".data] :=
  ⟨(claim1_theorem 13 "Hello, world! Hello, world! Hello!\r\n".data).1
      "Hello, world! ".data (by decide),
    (claim1_theorem 13 "Hello, world! Hello, world! Hello!\r\n".data).2.1
      "Hello, world! ".data (by decide),
    (claim1_theorem 13 "Hello, world! Hello, world! Hello!\r\n".data).2.2.1,
    (claim1_theorem 13 "Hello!".data).2.2.2 (by decide)⟩

/-! ## Claim C2 -/

/-- C2 counterexample: with bound 1 and body "ab", the scan flushes the chunk
"ab" and leaves an empty residual chunk, and that empty last chunk is NOT
emitted: the split is ["ab"], not ["ab", ""]. -/
theorem claim2_counterexample :
    (splitChunks 1 [] "ab".data).2 = []
    ∧ splitBody 1 "ab".data = ["ab".data]
    ∧ splitBody 1 "ab".data
        ≠ (splitChunks 1 [] "ab".data).1 ++ [(splitChunks 1 [] "ab".data).2] := by
  decide

/-- C2 (amended): the final accumulated chunk is emitted iff it is non-empty
or no chunk was flushed during the scan; in particular a body that needs no
splitting (byte length at most the bound) yields exactly one chunk containing
the whole body, and an empty body yields exactly one empty chunk. -/
theorem claim2_theorem (b : Nat) (body : List Char) :
    ((splitChunks b [] body).2 = [] → (splitChunks b [] body).1 ≠ [] →
      splitBody b body = (splitChunks b [] body).1)
    ∧ ((splitChunks b [] body).2 ≠ [] →
      splitBody b body = (splitChunks b [] body).1 ++ [(splitChunks b [] body).2])
    ∧ (utf8Len body ≤ b → splitBody b body = [body])
    ∧ splitBody b [] = [[]] := by
  refine ⟨?_, ?_, splitBody_small b body, ?_⟩
  · intro h2 h1
    unfold splitBody
    rw [if_neg (by push_neg; exact ⟨h2, h1⟩)]
  · intro h2
    unfold splitBody
    rw [if_pos (Or.inl h2)]
  · simp [splitBody, splitChunks]

/-- C2 witness: the dropped-empty-residual case, the appended-residual case,
the unsplit case and the empty-body case, each at a concrete input. -/
theorem claim2_witness :
    splitBody 1 "ab".data = (splitChunks 1 [] "ab".data).1
    ∧ splitBody 13 "Hello, world! Hello, world! Hello!\r\n".data
        = (splitChunks 13 [] "Hello, world! Hello, world! Hello!\r\n".data).1
          ++ [(splitChunks 13 [] "Hello, world! Hello, world! Hello!\r\n".data).2]
    ∧ splitBody 5 "hi".data = ["hi".data]
    ∧ splitBody 7 [] = [[]] :=
  ⟨(claim2_theorem 1 "ab".data).1 (by decide) (by decide),
    (claim2_theorem 13 "Hello, world! Hello, world! Hello!\r\n".data).2.1 (by decide),
    (claim2_theorem 5 "hi".data).2.2.1 (by decide),
    (claim2_theorem 7 []).2.2.2⟩

/-! ## Claim C6 -/

/-- C6: the version-compatibility check accepts exactly when both version
strings split on `.` into exactly three segments whose first two segments are
pairwise equal, and the three concrete examples behave as stated. -/
theorem claim6_theorem :
    (∀ h e : String, is_extension_compatible h e = true ↔
      ((splitSep '.' h.data).length = 3 ∧ (splitSep '.' e.data).length = 3
        ∧ (splitSep '.' h.data).take 2 = (splitSep '.' e.data).take 2))
    ∧ is_extension_compatible "1.2.3" "1.2.9" = true
    ∧ is_extension_compatible "1.2.3" "1.3.0" = false
    ∧ is_extension_compatible "1.2.3" "1.2" = false := by
  refine ⟨?_, by decide, by decide, by decide⟩
  intro h e
  unfold is_extension_compatible
  simp only [Bool.and_eq_true, decide_eq_true_eq]
  constructor
  · rintro ⟨⟨⟨h1, h2⟩, h3⟩, h4⟩
    refine ⟨h1, h2, ?_⟩
    rcases List.length_eq_three.1 h1 with ⟨a, b, c, hhs⟩
    rcases List.length_eq_three.1 h2 with ⟨x, y, z, hes⟩
    rw [hhs, hes] at h3 h4 ⊢
    simp at h3 h4
    simp [h3, h4]
  · rintro ⟨h1, h2, h3⟩
    rcases List.length_eq_three.1 h1 with ⟨a, b, c, hhs⟩
    rcases List.length_eq_three.1 h2 with ⟨x, y, z, hes⟩
    rw [hhs, hes] at h3
    simp at h3
    rw [hhs, hes]
    simp [h3.1, h3.2]

/-- C6 witness: the compatible concrete pair, via the theorem. -/
theorem claim6_witness : is_extension_compatible "1.2.3" "1.2.9" = true :=
  claim6_theorem.2.1

/-! ## Claim C9 -/

/-- C9: parsing a recipient header value — the empty string is a parse error;
a non-empty value starting with an opening brace is handed to the JSON decoder
(whose failure is propagated); any other non-empty value becomes an opaque
email-string recipient. -/
theorem claim9_theorem (nd : String → Except String ComposeRecipientNode) (v : String) :
    ComposeRecipient.fromHeaderValue nd ""
      = .error "Failed to convert empty string to ComposeRecipient"
    ∧ (v.data.head? = some '{' →
        ComposeRecipient.fromHeaderValue nd v = (nd v).map ComposeRecipient.node)
    ∧ (∀ c, v.data.head? = some c → c ≠ '{' →
        ComposeRecipient.fromHeaderValue nd v = .ok (ComposeRecipient.email v))
    ∧ (∀ e, v.data.head? = some '{' → nd v = .error e →
        ComposeRecipient.fromHeaderValue nd v = .error e) := by
  refine ⟨rfl, ?_, ?_, ?_⟩
  · intro h
    unfold ComposeRecipient.fromHeaderValue
    cases hv : v.data with
    | nil => rw [hv] at h; cases h
    | cons c cs =>
      rw [hv] at h
      simp only [List.head?] at h
      cases h
      simp
  · intro c h hne
    unfold ComposeRecipient.fromHeaderValue
    cases hv : v.data with
    | nil => rw [hv] at h; cases h
    | cons c0 cs =>
      rw [hv] at h
      simp only [List.head?, Option.some.injEq] at h
      subst h
      simp [hne]
  · intro e h hnd
    unfold ComposeRecipient.fromHeaderValue
    cases hv : v.data with
    | nil => rw [hv] at h; cases h
    | cons c0 cs =>
      rw [hv] at h
      simp only [List.head?, Option.some.injEq] at h
      subst h
      simp [hnd, Except.map]

/-- C9 witness: the three behaviours at concrete inputs, with the stub JSON
decoder (which rejects everything) exercising the malformed-JSON path. -/
theorem claim9_witness :
    ComposeRecipient.fromHeaderValue stubDecode ""
      = .error "Failed to convert empty string to ComposeRecipient"
    ∧ ComposeRecipient.fromHeaderValue stubDecode "\x7bbad json"
      = .error "serde_json decode error"
    ∧ ComposeRecipient.fromHeaderValue stubDecode "someone@example.com"
      = .ok (ComposeRecipient.email "someone@example.com") :=
  ⟨(claim9_theorem stubDecode "x").1,
    (claim9_theorem stubDecode "\x7bbad json").2.2.2 "serde_json decode error" rfl rfl,
    (claim9_theorem stubDecode "someone@example.com").2.2.1 's' rfl (by decide)⟩

/-! ## Lemmas about `stamp`, `buildResponses` and `headerPhase` -/

theorem foldr_append_mk (chunks : List (List Char)) :
    (chunks.map (fun ch => String.mk ch)).foldr (fun a b => a ++ b) ""
      = String.mk chunks.flatten := by
  induction chunks with
  | nil => rfl
  | cons a l ih =>
    simp only [List.map_cons, List.foldr_cons, ih, List.flatten_cons]
    apply String.ext
    simp [String.data_append]

theorem stamp_length (total : Nat) :
    ∀ (i : Nat) (rs : List Compose), (stamp total i rs).length = rs.length := by
  intro i rs
  induction rs generalizing i with
  | nil => rfl
  | cons r rest ih => simp [stamp, ih]

theorem stamp_map_sequence (total : Nat) :
    ∀ (rs : List Compose) (i : Nat),
      (stamp total i rs).map (fun r => r.configuration.sequence)
        = List.range' i rs.length := by
  intro rs
  induction rs with
  | nil => intro i; rfl
  | cons r rest ih =>
    intro i
    simp [stamp, List.range'_succ, ih]

theorem stamp_map_total (total : Nat) :
    ∀ (rs : List Compose) (i : Nat),
      (stamp total i rs).map (fun r => r.configuration.total)
        = List.replicate rs.length total := by
  intro rs
  induction rs with
  | nil => intro i; rfl
  | cons r rest ih =>
    intro i
    simp [stamp, List.replicate_succ, ih]

/-- Every stamped response is one of the originals with only `sequence` and
`total` replaced. -/
theorem stamp_mem (total : Nat) :
    ∀ (rs : List Compose) (i : Nat) (r : Compose), r ∈ stamp total i rs →
      ∃ r0 ∈ rs, ∃ j, r = { r0 with configuration :=
        { r0.configuration with sequence := j, total := total } } := by
  intro rs
  induction rs with
  | nil => intro i r h; cases h
  | cons r0 rest ih =>
    intro i r h
    rcases List.mem_cons.1 h with h | h
    · exact ⟨r0, List.mem_cons_self .., i, h⟩
    · rcases ih (i + 1) r h with ⟨r1, hr1, j, hj⟩
      exact ⟨r1, List.mem_cons_of_mem _ hr1, j, hj⟩

theorem stamp_map_respBody (total : Nat) :
    ∀ (rs : List Compose) (i : Nat),
      (stamp total i rs).map respBody = rs.map respBody := by
  intro rs
  induction rs with
  | nil => intro i; rfl
  | cons r rest ih =>
    intro i
    simp only [stamp, List.map_cons, ih]
    rfl

theorem respBody_set_body (c : Compose) (cd : ComposeDetails) (s : String) :
    respBody { c with compose_details := cd.set_body s } = s := by
  unfold respBody ComposeDetails.set_body
  by_cases h : cd.is_plain_text <;> simp [h]

theorem buildResponses_length (c : Compose) (body : List Char) (m : Nat) :
    (buildResponses c body m).length = (splitBody m body).length := by
  unfold buildResponses
  rw [stamp_length]
  simp

/-- The responses' body fields are exactly the chunks of the body split. -/
theorem buildResponses_map_respBody (c : Compose) (body : List Char) (m : Nat) :
    (buildResponses c body m).map respBody
      = (splitBody m body).map (fun ch => String.mk ch) := by
  unfold buildResponses
  rw [stamp_map_respBody]
  rw [List.map_map]
  apply List.map_congr_left
  intro ch _
  exact respBody_set_body ..

/-- Every response produced by `buildResponses` carries the warnings and the
`send_on_exit` flag of the parsed compose unchanged. -/
theorem buildResponses_fields (c : Compose) (body : List Char) (m : Nat) :
    ∀ r ∈ buildResponses c body m,
      r.warnings = c.warnings
        ∧ r.configuration.send_on_exit = c.configuration.send_on_exit := by
  intro r hr
  unfold buildResponses at hr
  rcases stamp_mem _ _ _ _ hr with ⟨r0, hr0, j, hj⟩
  rcases List.mem_map.1 hr0 with ⟨ch, _, hch⟩
  subst hj
  rw [← hch]
  exact ⟨rfl, rfl⟩

/-- `forceNoSend` leaves no state with warnings and `send_on_exit` both set. -/
theorem forceNoSend_warnings (c : Compose) :
    (forceNoSend c).warnings ≠ [] → (forceNoSend c).configuration.send_on_exit = false := by
  unfold forceNoSend
  split
  · next h => intro hw; exact absurd h hw
  · intro _; rfl

/-- The post-loop processing never leaves warnings and `send_on_exit` both set. -/
theorem headerPost_warnings (c1 : Compose) (unknown : List String) :
    (headerPost c1 unknown).warnings ≠ []
      → (headerPost c1 unknown).configuration.send_on_exit = false :=
  forceNoSend_warnings _

/-- After a successful header phase, non-empty warnings force
`send_on_exit = false` (messaging.rs lines 274-277). -/
theorem headerPhase_warnings (nd : String → Except String ComposeRecipientNode)
    (c : Compose) (input : List Char) (c' : Compose) (rest : List Char)
    (h : headerPhase nd c input = .ok (c', rest)) :
    c'.warnings ≠ [] → c'.configuration.send_on_exit = false := by
  unfold headerPhase at h
  split at h
  · cases h
  · next c1 unknown rest1 =>
    simp only [Except.ok.injEq, Prod.mk.injEq] at h
    rw [← h.1]
    exact headerPost_warnings _ _

/-- Unfolding `mergeFromEml` on success. -/
theorem mergeFromEml_ok (nd : String → Except String ComposeRecipientNode)
    (c : Compose) (input : List Char) (m : Nat) (rs : List Compose)
    (h : mergeFromEml nd c input m = .ok rs) :
    ∃ c' rest, headerPhase nd c input = .ok (c', rest)
      ∧ rs = buildResponses c' rest m := by
  unfold mergeFromEml at h
  split at h
  · cases h
  · next c1 rest heq =>
    simp only [Except.ok.injEq] at h
    exact ⟨c1, rest, heq, h.symm⟩

/-! ## Claim C4 -/

/-- C4: a successful `merge_from_eml` returns at least one response; the
responses' `sequence` values are exactly 0, 1, ..., total - 1 in order, every
response's `total` equals the number of responses, and consequently
`sequence < total` and `total ≥ 1` for every response. -/
theorem claim4_theorem (nd : String → Except String ComposeRecipientNode)
    (c : Compose) (input : List Char) (m : Nat) (rs : List Compose)
    (h : mergeFromEml nd c input m = .ok rs) :
    1 ≤ rs.length
    ∧ rs.map (fun r => r.configuration.sequence) = List.range rs.length
    ∧ rs.map (fun r => r.configuration.total) = List.replicate rs.length rs.length
    ∧ ∀ r ∈ rs, r.configuration.sequence < r.configuration.total
        ∧ 1 ≤ r.configuration.total := by
  rcases mergeFromEml_ok nd c input m rs h with ⟨c', rest, _, hrs⟩
  subst hrs
  have hlen : (buildResponses c' rest m).length = (splitBody m rest).length :=
    buildResponses_length ..
  have hpos : 1 ≤ (buildResponses c' rest m).length := by
    rw [hlen]
    have := splitBody_ne_nil m rest
    cases hsb : splitBody m rest with
    | nil => exact absurd hsb this
    | cons a l => simp
  have hseq : (buildResponses c' rest m).map (fun r => r.configuration.sequence)
      = List.range (buildResponses c' rest m).length := by
    unfold buildResponses
    rw [stamp_map_sequence, stamp_length, List.range_eq_range']
  have htot : (buildResponses c' rest m).map (fun r => r.configuration.total)
      = List.replicate (buildResponses c' rest m).length
          (buildResponses c' rest m).length := by
    unfold buildResponses
    rw [stamp_map_total, stamp_length]
  refine ⟨hpos, hseq, htot, ?_⟩
  intro r hr
  have hs : r.configuration.sequence ∈ List.range (buildResponses c' rest m).length := by
    rw [← hseq]
    exact List.mem_map_of_mem _ hr
  have ht : r.configuration.total = (buildResponses c' rest m).length := by
    have : r.configuration.total ∈ (buildResponses c' rest m).map
        (fun r => r.configuration.total) := List.mem_map_of_mem _ hr
    rw [htot] at this
    exact List.eq_of_mem_replicate this
  rw [ht]
  exact ⟨List.mem_range.1 hs, hpos⟩

/-- Concrete document for the C4 witness: a chunked three-response merge. -/
def c4wDoc : String := "From: foo@example.com\r\n\r\nHello, world! Hello, world! Hello!\r\n"

/-- The responses of the C4 witness merge. -/
def c4wRs : List Compose :=
  match mergeFromEml stubDecode blankCompose c4wDoc.data 13 with
  | .ok rs => rs
  | .error _ => []

/-- C4 witness: the concrete chunked merge succeeds and the theorem's
conclusions hold for it. -/
theorem claim4_witness :
    mergeFromEml stubDecode blankCompose c4wDoc.data 13 = .ok c4wRs
    ∧ (1 ≤ c4wRs.length
      ∧ c4wRs.map (fun r => r.configuration.sequence) = List.range c4wRs.length
      ∧ c4wRs.map (fun r => r.configuration.total)
          = List.replicate c4wRs.length c4wRs.length
      ∧ ∀ r ∈ c4wRs, r.configuration.sequence < r.configuration.total
          ∧ 1 ≤ r.configuration.total) :=
  ⟨rfl, claim4_theorem stubDecode blankCompose c4wDoc.data 13 c4wRs rfl⟩

/-! ## Claim C3 -/

/-- C3: for a successful `merge_from_eml`, concatenating the body fields of
the responses in their returned order — which is exactly increasing `sequence`
order — reproduces the parsed body (the stream remainder after the header
block) exactly.  Chunks are formed character by character, so no split falls
inside a character. -/
theorem claim3_theorem (nd : String → Except String ComposeRecipientNode)
    (c : Compose) (input : List Char) (m : Nat) (rs : List Compose)
    (c' : Compose) (rest : List Char)
    (h1 : mergeFromEml nd c input m = .ok rs)
    (h2 : headerPhase nd c input = .ok (c', rest)) :
    (rs.map respBody).foldr (fun a b => a ++ b) "" = String.mk rest
    ∧ rs.map (fun r => r.configuration.sequence) = List.range rs.length := by
  rcases mergeFromEml_ok nd c input m rs h1 with ⟨c'', rest', hp, hrs⟩
  rw [h2] at hp
  simp only [Except.ok.injEq, Prod.mk.injEq] at hp
  rw [← hp.2] at hrs
  constructor
  · rw [hrs, buildResponses_map_respBody, foldr_append_mk, splitBody_flatten]
  · rw [hrs]
    unfold buildResponses
    rw [stamp_map_sequence, stamp_length, List.range_eq_range']

/-- Parsed compose and body remainder of the C3 witness document. -/
def c3wPhase : Compose × List Char :=
  match headerPhase stubDecode blankCompose c4wDoc.data with
  | .ok out => out
  | .error _ => (blankCompose, [])

/-- C3 witness: on the concrete chunked merge, the concatenation of the three
response bodies is the parsed body, and the responses are in sequence order. -/
theorem claim3_witness :
    mergeFromEml stubDecode blankCompose c4wDoc.data 13 = .ok c4wRs
    ∧ headerPhase stubDecode blankCompose c4wDoc.data
        = .ok (c3wPhase.1, c3wPhase.2)
    ∧ (c4wRs.map respBody).foldr (fun a b => a ++ b) "" = String.mk c3wPhase.2
    ∧ c4wRs.map (fun r => r.configuration.sequence) = List.range c4wRs.length :=
  ⟨rfl, rfl,
    claim3_theorem stubDecode blankCompose c4wDoc.data 13 c4wRs c3wPhase.1 c3wPhase.2
      rfl rfl⟩

/-! ## Claim C10 -/

/-- C10: after any successful `merge_from_eml`, a response whose warnings list
is non-empty — whether the warnings were already present in the inbound
request or were produced from unknown headers during parsing — has
`send_on_exit = false`, even if the document carried an explicit
`X-ExtEditorR-Send-On-Exit: true` header. -/
theorem claim10_theorem (nd : String → Except String ComposeRecipientNode)
    (c : Compose) (input : List Char) (m : Nat) (rs : List Compose)
    (h : mergeFromEml nd c input m = .ok rs) :
    ∀ r ∈ rs, r.warnings ≠ [] → r.configuration.send_on_exit = false := by
  rcases mergeFromEml_ok nd c input m rs h with ⟨c', rest, hp, hrs⟩
  intro r hr hw
  subst hrs
  rcases buildResponses_fields c' rest m r hr with ⟨hw', hs⟩
  rw [hw'] at hw
  rw [hs]
  exact headerPhase_warnings nd c input c' rest hp hw

/-- The C10 witness request: a request that already carries a warning and asks
for send-on-exit. -/
def c10wReq : Compose :=
  { blankCompose with
    warnings := [{ title := "Prior warning", message := "from the inbound request" }]
    configuration := { blankCompose.configuration with send_on_exit := true } }

/-- The C10 witness document: explicitly requests send-on-exit and contains no
unknown header. -/
def c10wDoc : String := "X-ExtEditorR-Send-On-Exit: true\r\n\r\nThis is a test.\r\n"

/-- The responses of the C10 witness merge. -/
def c10wRs : List Compose :=
  match mergeFromEml stubDecode c10wReq c10wDoc.data 512 with
  | .ok rs => rs
  | .error _ => []

/-- The first response of the C10 witness merge. -/
def c10wR : Compose := c10wRs.headD blankCompose

/-- C10 witness: the merge succeeds, its response still carries the inbound
warning, and `send_on_exit` is false despite the explicit header. -/
theorem claim10_witness :
    mergeFromEml stubDecode c10wReq c10wDoc.data 512 = .ok c10wRs
    ∧ c10wR ∈ c10wRs
    ∧ c10wR.warnings ≠ []
    ∧ c10wR.configuration.send_on_exit = false :=
  ⟨rfl, by decide, by decide,
    claim10_theorem stubDecode c10wReq c10wDoc.data 512 c10wRs rfl c10wR
      (by decide) (by decide)⟩

/-! ## Claim C7 -/

/-- The C7 document whose malformed unbracketed attach-vCard value must abort
the whole parse. -/
def c7doc : String := "X-ExtEditorR-Attach-vCard: yes\r\n\r\nThis is a test.\r\n"

/-- C7: the tri-state attach-vCard flag.  (1) Rendering a compose whose flag
holds a value but is untouched emits the value wrapped in brackets.
(2) Parsing a bracketed value leaves the whole tracked state — value and
touched flag — unchanged.  (3) Parsing an unbracketed "true"/"false" sets the
value and marks the flag touched.  (4) A malformed unbracketed value is a
parse error, (5) which aborts the whole document parse. -/
theorem claim7_theorem :
    (∀ (t : TrackedOptionBool) (v : Bool), t.inner = some v → t.changed = false →
      renderAttachVCard t = some (HEADER_ATTACH_VCARD ++ ": [" ++ boolStr v ++ "]"))
    ∧ (∀ (t : TrackedOptionBool) (s : String),
        sStartsWith s "[" = true → sEndsWith s "]" = true →
        attachVCardStep t s = .ok t)
    ∧ (∀ t : TrackedOptionBool,
        attachVCardStep t "true" = .ok { inner := some true, changed := true }
        ∧ attachVCardStep t "false" = .ok { inner := some false, changed := true })
    ∧ (∀ (t : TrackedOptionBool) (s : String),
        (sStartsWith s "[" && sEndsWith s "]") = false → s ≠ "true" → s ≠ "false" →
        attachVCardStep t s
          = .error ("ExtEditorR failed to parse " ++ HEADER_ATTACH_VCARD ++ " value: " ++ s))
    ∧ mergeFromEml stubDecode blankCompose c7doc.data 512
        = .error ("ExtEditorR failed to parse " ++ HEADER_ATTACH_VCARD ++ " value: yes") := by
  refine ⟨?_, ?_, ?_, ?_, rfl⟩
  · intro t v hv _
    unfold renderAttachVCard
    rw [hv]
    rfl
  · intro t s h1 h2
    unfold attachVCardStep parseOptionalHeader
    rw [h1, h2]
    rfl
  · intro t
    exact ⟨rfl, rfl⟩
  · intro t s hb h1 h2
    unfold attachVCardStep parseOptionalHeader
    rw [hb]
    simp only [Bool.false_eq_true, if_false]
    unfold boolFromStr
    rw [if_neg h1, if_neg h2]

/-! ## Lemmas for claim C8 -/

theorem dropWhile_eq_self_of_head (p : Char → Bool) (l : List Char)
    (h : ∀ c ∈ l, p c = false) : l.dropWhile p = l := by
  cases l with
  | nil => rfl
  | cons c cs => simp [List.dropWhile_cons, h c (List.mem_cons_self ..)]

/-- A list with no whitespace characters is already trimmed. -/
theorem trimList_eq_self (l : List Char) (h : ∀ c ∈ l, c.isWhitespace = false) :
    trimList l = l := by
  unfold trimList
  rw [dropWhile_eq_self_of_head _ l h]
  rw [dropWhile_eq_self_of_head _ l.reverse (fun c hc => h c (List.mem_reverse.1 hc))]
  exact List.reverse_reverse l

/-- Every character of a replacement result comes from the input or from the
replacement string. -/
theorem replaceAux_subset (pat rep : List Char) :
    ∀ (fuel : Nat) (l : List Char) (c : Char),
      c ∈ replaceAux pat rep fuel l → c ∈ l ∨ c ∈ rep := by
  intro fuel
  induction fuel with
  | zero => intro l c h; exact Or.inl h
  | succ f ih =>
    intro l c h
    cases l with
    | nil => cases h
    | cons a as =>
      simp only [replaceAux] at h
      split at h
      · rcases List.mem_append.1 h with h | h
        · exact Or.inr h
        · rcases ih _ _ h with h | h
          · exact Or.inl (List.mem_cons_of_mem _ (List.drop_subset _ _ h))
          · exact Or.inr h
      · rcases List.mem_cons.1 h with h | h
        · exact Or.inl (h ▸ List.mem_cons_self ..)
        · rcases ih _ _ h with h | h
          · exact Or.inl (List.mem_cons_of_mem _ h)
          · exact Or.inr h

/-- Replacing a pattern by a replacement that lowercases identically does not
change the lowercased string. -/
theorem replaceAux_toLower (pat rep : List Char)
    (hlow : pat.map Char.toLower = rep.map Char.toLower) (hpat : pat ≠ []) :
    ∀ (fuel : Nat) (l : List Char),
      (replaceAux pat rep fuel l).map Char.toLower = l.map Char.toLower := by
  intro fuel
  induction fuel with
  | zero => intro l; rfl
  | succ f ih =>
    intro l
    cases l with
    | nil => rfl
    | cons a as =>
      simp only [replaceAux]
      split
      · next hpre =>
        rcases List.isPrefixOf_iff_prefix.1 hpre with ⟨t, ht⟩
        have hdrop : as.drop (pat.length - 1) = t := by
          have h1 : (pat ++ t).drop pat.length = t := List.drop_left pat t
          rw [ht] at h1
          cases pat with
          | nil => exact absurd rfl hpat
          | cons p ps => simpa [List.drop_succ_cons] using h1
        rw [List.map_append, ih, hdrop, ← ht, List.map_append, hlow]
      · next hpre =>
        simp [ih]

/-- `split_once` on a string whose separator first occurs after `a`. -/
theorem splitOnceAux_append (sep : Char) (a b : List Char) (h : sep ∉ a) :
    splitOnceAux sep (a ++ sep :: b) = some (a, b) := by
  induction a with
  | nil => simp [splitOnceAux]
  | cons x xs ih =>
    have hx : ¬ x = sep := fun he => h (he ▸ List.mem_cons_self ..)
    simp only [List.cons_append, splitOnceAux, if_neg hx, List.append_eq]
    rw [ih (fun hm => h (List.mem_cons_of_mem _ hm))]
    rfl

/-- Prefixes are preserved under appending on the left. -/
theorem prefix_append_prefix {p l q : List Char} (h : p.isPrefixOf l = true) :
    (q ++ p).isPrefixOf (q ++ l) = true := by
  rw [List.isPrefixOf_iff_prefix] at h ⊢
  rcases h with ⟨t, ht⟩
  exact ⟨t, by rw [List.append_assoc, ht]⟩

/-- A string starting with the doubled meta prefix is distinct from any string
that does not. -/
theorem ne_of_escaped (s a : String)
    (h : sStartsWith s HEADER_LOWER_ESCAPED_META = true)
    (ha : sStartsWith a HEADER_LOWER_ESCAPED_META = false) : ¬ s = a := by
  intro he
  rw [he] at h
  rw [h] at ha
  cases ha

/-- `process_header` on a header whose (trimmed, lowercased) name starts with
the doubled meta prefix: the reserved branches are all skipped and the header
is stored as a custom header with one meta prefix stripped (messaging.rs lines
393-398). -/
theorem headerStep_escaped (nd : String → Except String ComposeRecipientNode)
    (c : Compose) (u : List String) (hn hv : String)
    (hpre : sStartsWith (sToLower (trimStr hn)) HEADER_LOWER_ESCAPED_META = true)
    (hne : ¬ trimStr hv = "") :
    headerStep nd c u hn hv
      = .ok ({ c with compose_details := { c.compose_details with
          custom_headers := c.compose_details.custom_headers
            ++ [CustomHeader.new (sDrop hn 13) (trimStr hv)] } }, u, []) := by
  have e1 := ne_of_escaped _ "from" hpre (by decide)
  have e2 := ne_of_escaped _ "to" hpre (by decide)
  have e3 := ne_of_escaped _ "cc" hpre (by decide)
  have e4 := ne_of_escaped _ "bcc" hpre (by decide)
  have e5 := ne_of_escaped _ "reply-to" hpre (by decide)
  have e6 := ne_of_escaped _ "subject" hpre (by decide)
  have e7 := ne_of_escaped _ "x-exteditorr-priority" hpre (by decide)
  have e8 := ne_of_escaped _ "x-exteditorr-delivery-format" hpre (by decide)
  have e9 := ne_of_escaped _ "x-exteditorr-attach-vcard" hpre (by decide)
  have e10 := ne_of_escaped _ "x-exteditorr-delivery-status-notification" hpre (by decide)
  have e11 := ne_of_escaped _ "x-exteditorr-dsn" hpre (by decide)
  have e12 := ne_of_escaped _ "x-exteditorr-return-receipt" hpre (by decide)
  have e13 := ne_of_escaped _ "x-exteditorr-allow-x-headers" hpre (by decide)
  have e14 := ne_of_escaped _ "x-exteditorr-allow-custom-headers" hpre (by decide)
  have e15 := ne_of_escaped _ "x-exteditorr-x-header" hpre (by decide)
  have e16 := ne_of_escaped _ "x-exteditorr-custom-header" hpre (by decide)
  have e17 := ne_of_escaped _ "x-exteditorr-send-on-exit" hpre (by decide)
  have e18 := ne_of_escaped _ "x-exteditorr-help" hpre (by decide)
  have e19 := ne_of_escaped _ "x-exteditorr" hpre (by decide)
  simp only [headerStep]
  rw [if_neg hne, if_neg e1, if_neg e2, if_neg e3, if_neg e4, if_neg e5, if_neg e6,
    if_neg e7, if_neg e8, if_neg e9, if_neg (not_or.mpr ⟨e10, e11⟩), if_neg e12,
    if_neg (not_or.mpr ⟨e13, e14⟩), if_neg (not_or.mpr ⟨e15, e16⟩), if_neg e17,
    if_neg e18, if_neg e19, if_pos hpre]

/-! ## Claim C8 -/

/-- C8 counterexample: the custom header name `X-Exteditorr-Bar` (the
Thunderbird-normalised capitalisation, taken from the repository's own test
suite) begins case-insensitively with the reserved meta prefix, yet rendering
does not emit "the meta prefix, a hyphen, then the original name": the name is
first rewritten to `X-ExtEditorR-Bar`, and parsing the rendered line therefore
recovers `X-ExtEditorR-Bar`, not the original name. -/
theorem claim8_counterexample :
    sStartsWith (sToLower "X-Exteditorr-Bar") HEADER_LOWER_META = true
    ∧ renderCustomHeader { name := "X-Exteditorr-Bar", value := "world" }
        = "X-ExtEditorR-X-ExtEditorR-Bar: world"
    ∧ renderCustomHeader { name := "X-Exteditorr-Bar", value := "world" }
        ≠ HEADER_META ++ "-" ++ "X-Exteditorr-Bar" ++ ": " ++ "world"
    ∧ CustomHeader.new (sDrop "X-ExtEditorR-X-ExtEditorR-Bar" 13) "world"
        = { name := "X-ExtEditorR-Bar", value := "world" }
    ∧ ({ name := "X-ExtEditorR-Bar", value := "world" } : CustomHeader)
        ≠ { name := "X-Exteditorr-Bar", value := "world" } := by
  decide

/-- C8 (amended): for a custom header whose name begins case-insensitively
with the reserved meta prefix (and, as for any header name, contains no
whitespace and no colon; the value trimmed and non-empty), rendering emits the
meta prefix, a hyphen, then the name with the Thunderbird-normalised
capitalisation `X-Exteditorr` rewritten to `X-ExtEditorR`; splitting the
rendered line at its first colon recovers that doubled name and the value, and
`process_header` on it strips exactly one leading meta prefix, storing the
normalised name and the value as a custom header — never mistaking it for a
reserved field.  When the name contains no normalised-capitalisation
occurrence and no lowercase `x-` prefix, the original name is recovered
exactly. -/
theorem claim8_theorem (nd : String → Except String ComposeRecipientNode)
    (c : Compose) (u : List String) (name value : String)
    (hmeta : sStartsWith (sToLower name) HEADER_LOWER_META = true)
    (hname : ∀ ch ∈ name.data, ch.isWhitespace = false ∧ ¬ ch = ':')
    (hvtrim : trimStr value = value)
    (hvne : ¬ value = "") :
    renderCustomHeader { name := name, value := value }
      = HEADER_META ++ "-" ++ normaliseMetaName name ++ ": " ++ value
    ∧ sSplitOnce ':' (HEADER_META ++ "-" ++ normaliseMetaName name ++ ": " ++ value)
        = some (HEADER_META ++ "-" ++ normaliseMetaName name, " " ++ value)
    ∧ headerStep nd c u (HEADER_META ++ "-" ++ normaliseMetaName name) (" " ++ value)
        = .ok ({ c with compose_details := { c.compose_details with
            custom_headers := c.compose_details.custom_headers
              ++ [CustomHeader.new (normaliseMetaName name) value] } }, u, [])
    ∧ (normaliseMetaName name = name → sStartsWith name "x-" = false →
        CustomHeader.new (normaliseMetaName name) value
          = { name := name, value := value }) := by
  have hvdata : trimList value.data = value.data := congrArg String.data hvtrim
  have hrep : ∀ ch ∈ "X-ExtEditorR".data, ch.isWhitespace = false ∧ ¬ ch = ':' := by
    decide
  have hpref : ∀ ch ∈ "X-ExtEditorR-".data, ch.isWhitespace = false ∧ ¬ ch = ':' := by
    decide
  have hnormchars : ∀ ch ∈ (normaliseMetaName name).data,
      ch.isWhitespace = false ∧ ¬ ch = ':' := by
    intro ch hch
    rcases replaceAux_subset "X-Exteditorr".data "X-ExtEditorR".data
        name.data.length name.data ch hch with h | h
    · exact hname ch h
    · exact hrep ch h
  have hmap : ((normaliseMetaName name).data).map Char.toLower
      = name.data.map Char.toLower :=
    replaceAux_toLower "X-Exteditorr".data "X-ExtEditorR".data (by decide) (by decide)
      name.data.length name.data
  have hvsp : trimStr (" " ++ value) = value := by
    show String.mk (trimList value.data) = value
    rw [hvdata]
  have hntrim : trimStr (HEADER_META ++ "-" ++ normaliseMetaName name)
      = HEADER_META ++ "-" ++ normaliseMetaName name := by
    show String.mk
        (trimList ("X-ExtEditorR-".data ++ (normaliseMetaName name).data)) = _
    rw [trimList_eq_self]
    · rfl
    · intro ch hch
      rcases List.mem_append.1 hch with h | h
      · exact (hpref ch h).1
      · exact (hnormchars ch h).1
  have hpre : sStartsWith (sToLower (trimStr (HEADER_META ++ "-" ++ normaliseMetaName name)))
      HEADER_LOWER_ESCAPED_META = true := by
    rw [hntrim]
    show ("x-exteditorr-".data ++ "x-exteditorr".data).isPrefixOf
        (("X-ExtEditorR-".data ++ (normaliseMetaName name).data).map Char.toLower) = true
    rw [List.map_append, hmap]
    exact prefix_append_prefix hmeta
  have hne' : ¬ trimStr (" " ++ value) = "" := by
    rw [hvsp]; exact hvne
  have hdrop : sDrop (HEADER_META ++ "-" ++ normaliseMetaName name) 13
      = normaliseMetaName name := by
    show String.mk
        (("X-ExtEditorR-".data ++ (normaliseMetaName name).data).drop
          "X-ExtEditorR-".data.length) = _
    rw [List.drop_left]
  have hnocolon : ':' ∉ "X-ExtEditorR-".data ++ (normaliseMetaName name).data := by
    intro hmem
    rcases List.mem_append.1 hmem with h | h
    · exact absurd rfl (hpref ':' h).2
    · exact absurd rfl (hnormchars ':' h).2
  refine ⟨?_, ?_, ?_, ?_⟩
  · simp only [renderCustomHeader]
    rw [if_pos hmeta]
  · have key := splitOnceAux_append ':'
      ("X-ExtEditorR-".data ++ (normaliseMetaName name).data) (' ' :: value.data) hnocolon
    unfold sSplitOnce
    have hline : (HEADER_META ++ "-" ++ normaliseMetaName name ++ ": " ++ value).data
        = ("X-ExtEditorR-".data ++ (normaliseMetaName name).data)
          ++ ':' :: ' ' :: value.data := by
      show (("X-ExtEditorR-".data ++ (normaliseMetaName name).data) ++ [':', ' '])
          ++ value.data = _
      rw [List.append_assoc]
      rfl
    rw [hline, key]
    rfl
  · rw [headerStep_escaped nd c u _ _ hpre hne', hdrop, hvsp]
  · intro hid hx
    have hntrim2 : trimStr name = name := by
      show String.mk (trimList name.data) = name
      rw [trimList_eq_self name.data (fun ch hch => (hname ch hch).1)]
    rw [hid]
    unfold CustomHeader.new
    rw [hntrim2, hvtrim, hx]
    simp

/-- C8 witness: the canonical colliding custom header `X-ExtEditorR-Foo: hello`
from the repository's test suite, whose name survives the round trip exactly. -/
theorem claim8_witness :
    renderCustomHeader { name := "X-ExtEditorR-Foo", value := "hello" }
      = HEADER_META ++ "-" ++ normaliseMetaName "X-ExtEditorR-Foo" ++ ": " ++ "hello"
    ∧ sSplitOnce ':'
        (HEADER_META ++ "-" ++ normaliseMetaName "X-ExtEditorR-Foo" ++ ": " ++ "hello")
        = some (HEADER_META ++ "-" ++ normaliseMetaName "X-ExtEditorR-Foo", " " ++ "hello")
    ∧ headerStep stubDecode blankCompose []
        (HEADER_META ++ "-" ++ normaliseMetaName "X-ExtEditorR-Foo") (" " ++ "hello")
        = .ok ({ blankCompose with compose_details :=
            { blankCompose.compose_details with custom_headers :=
              blankCompose.compose_details.custom_headers
                ++ [CustomHeader.new (normaliseMetaName "X-ExtEditorR-Foo") "hello"] } },
            [], [])
    ∧ CustomHeader.new (normaliseMetaName "X-ExtEditorR-Foo") "hello"
        = { name := "X-ExtEditorR-Foo", value := "hello" } :=
  ⟨(claim8_theorem stubDecode blankCompose [] "X-ExtEditorR-Foo" "hello"
      (by decide) (by decide) rfl (by decide)).1,
    (claim8_theorem stubDecode blankCompose [] "X-ExtEditorR-Foo" "hello"
      (by decide) (by decide) rfl (by decide)).2.1,
    (claim8_theorem stubDecode blankCompose [] "X-ExtEditorR-Foo" "hello"
      (by decide) (by decide) rfl (by decide)).2.2.1,
    (claim8_theorem stubDecode blankCompose [] "X-ExtEditorR-Foo" "hello"
      (by decide) (by decide) rfl (by decide)).2.2.2 (by decide) (by decide)⟩

/-! ## Claim C5 -/

/-- The C5 document: an unknown plain header, an explicit send-on-exit
request, and an unknown `X-` header. -/
def c5doc : String :=
  "Foo: hello\r\nX-ExtEditorR-Send-On-Exit: true\r\nX-Bar: world\r\n\r\nThis is a test.\r\n"

/-- The single warning produced for the C5 document: it names `Foo` and
`X-Bar`, one per line, and does not mention `X-ExtEditorR-Send-On-Exit`. -/
def c5warning : Warning :=
  { title := "Unknown header(s) found"
    message := "ExtEditorR did not recognise the following headers:\n- Foo\n- X-Bar" }

/-- The compose state right after the C5 header loop: send-on-exit granted by
the document, `X-Bar` held as a custom header, `Foo` recorded as unknown. -/
def c5mid (c : Compose) : Compose :=
  { c with
    configuration := { c.configuration with send_on_exit := true }
    compose_details := { c.compose_details.clear_recipients with
      custom_headers := [{ name := "X-Bar", value := "world" }] } }

/-- The compose state after the post-loop processing of the C5 document:
`X-Bar` demoted to unknown, the warning appended, send-on-exit revoked. -/
def c5parsed (c : Compose) : Compose :=
  { c with
    configuration := { c.configuration with send_on_exit := false }
    warnings := c.warnings ++ [c5warning]
    compose_details := { c.compose_details.clear_recipients with custom_headers := [] } }

/-- The single response of the C5 merge. -/
def c5response (c : Compose) : Compose :=
  { configuration :=
      { c.configuration with send_on_exit := false, sequence := 0, total := 1 }
    warnings := c.warnings ++ [c5warning]
    tab := c.tab
    compose_details :=
      ({ c.compose_details.clear_recipients with
        custom_headers := [], body := "", plain_text_body := "" }).set_body
        "This is a test.\r\n" }

/-- C5: parsing the C5 document on any request that disallows custom headers
and carries no prior warnings yields exactly one response, carrying exactly
one warning — the one naming `Foo` and `X-Bar` — and `send_on_exit = false`
despite the explicit `true` in the input. -/
theorem claim5_theorem (nd : String → Except String ComposeRecipientNode)
    (c : Compose)
    (h1 : c.configuration.allow_custom_headers = false)
    (h2 : c.warnings = []) :
    mergeFromEml nd c c5doc.data 512 = .ok [c5response c]
    ∧ (c5response c).warnings = [c5warning]
    ∧ (c5response c).configuration.send_on_exit = false := by
  have eloop : headerLoop nd (c5doc.data.length + 1)
      { c with
        configuration := { c.configuration with send_on_exit := false }
        compose_details :=
          { c.compose_details.clear_recipients with custom_headers := [] } }
      [] c5doc.data
      = .ok (c5mid c, ["Foo"], "This is a test.\r\n".data) := rfl
  have ha : (c5mid c).configuration.allow_custom_headers = false := h1
  have epost : headerPost (c5mid c) ["Foo"] = c5parsed c := by
    have hcust : (c5mid c).compose_details.custom_headers
        = [{ name := "X-Bar", value := "world" }] := rfl
    have hwarn : (c5mid c).warnings = [] := h2
    have hweq : unknownWarning ["Foo", "X-Bar"] = c5warning := rfl
    unfold headerPost forceNoSend
    rw [ha]
    simp only [Bool.false_eq_true, if_false, hcust, hwarn, List.map_cons,
      List.map_nil, List.cons_append, List.nil_append]
    simp only [reduceIte, List.cons_ne_nil, if_neg]
    simp [c5mid, c5parsed, hweq, h2]
  have ephase : headerPhase nd c c5doc.data
      = .ok (c5parsed c, "This is a test.\r\n".data) := by
    unfold headerPhase
    rw [eloop]
    show Except.ok (headerPost (c5mid c) ["Foo"], "This is a test.\r\n".data) = _
    rw [epost]
  have ebuild : buildResponses (c5parsed c) "This is a test.\r\n".data 512
      = [c5response c] := rfl
  refine ⟨?_, ?_, rfl⟩
  · unfold mergeFromEml
    rw [ephase]
    show Except.ok (buildResponses (c5parsed c) "This is a test.\r\n".data 512)
      = Except.ok [c5response c]
    rw [ebuild]
  · show c.warnings ++ [c5warning] = [c5warning]
    rw [h2]
    rfl

/-- C5 witness: the theorem instantiated at the repository's blank request. -/
theorem claim5_witness :
    blankCompose.configuration.allow_custom_headers = false
    ∧ blankCompose.warnings = []
    ∧ (mergeFromEml stubDecode blankCompose c5doc.data 512
        = .ok [c5response blankCompose]
      ∧ (c5response blankCompose).warnings = [c5warning]
      ∧ (c5response blankCompose).configuration.send_on_exit = false) :=
  ⟨rfl, rfl, claim5_theorem stubDecode blankCompose rfl rfl⟩

/-- C7 witness: the four behaviours at concrete inputs, matching the
repository's `merge_attach_vcard_test`. -/
theorem claim7_witness :
    renderAttachVCard (TrackedOptionBool.new false)
      = some (HEADER_ATTACH_VCARD ++ ": [" ++ boolStr false ++ "]")
    ∧ attachVCardStep (TrackedOptionBool.new false) "[false]"
        = .ok (TrackedOptionBool.new false)
    ∧ attachVCardStep (TrackedOptionBool.new false) "true"
        = .ok { inner := some true, changed := true }
    ∧ attachVCardStep (TrackedOptionBool.new false) "yes"
        = .error ("ExtEditorR failed to parse " ++ HEADER_ATTACH_VCARD ++ " value: yes") :=
  ⟨claim7_theorem.1 (TrackedOptionBool.new false) false rfl rfl,
    claim7_theorem.2.1 (TrackedOptionBool.new false) "[false]" (by decide) (by decide),
    (claim7_theorem.2.2.1 (TrackedOptionBool.new false)).1,
    claim7_theorem.2.2.2.1 (TrackedOptionBool.new false) "yes"
      (by decide) (by decide) (by decide)⟩

end EER
